import Mathlib

/-!
Shallow embedding of `convert_docx_to_excel_with_drive.py`.

External collaborators (the HTTP stack and the Drive service) are modelled
explicitly: the HTTP stack as a function from URL and timeout to an outcome,
the Drive service as a pure state (list of files plus a fresh-id counter).
Bytes are lists of naturals.  Python exceptions that the source catches are
modelled as explicit outcome values; code paths the source leaves uncaught
surface as `Except` errors or as outcome values of the model.
-/

namespace Docx

/-- Raw bytes (a Python `bytes` value). -/
abbrev Bytes := List Nat

/-- The character class of the default Python `str.strip` (ASCII whitespace). -/
def pySpace (c : Char) : Bool :=
  c = ' ' || c = '\t' || c = '\n' || c = '\r' || c = '\x0b' || c = '\x0c'

/-- Python `str.strip()`: drop leading and trailing whitespace. -/
def pyStrip (s : String) : String :=
  String.mk (((s.data.dropWhile pySpace).reverse.dropWhile pySpace).reverse)

/-- A binary part of the document package (`content_type` and `blob`),
the target of an internal relationship. -/
structure Part where
  content_type : String
  blob : Bytes
deriving DecidableEq, Repr

/-- One relationship of the cell's document part (`cell.part.rels` entry).
`target_part` is `none` exactly when the relationship is external: in
python-docx, reading `target_part` on an external relationship raises
`ValueError`, which `hasattr` does not swallow. -/
structure Rel where
  rId : String
  is_external : Bool
  target_ref : String
  target_part : Option Part
deriving DecidableEq, Repr

/-- A table cell: its paragraph texts, the `r:id` attributes of its
`w:hyperlink` elements (each possibly absent), its `w:instrText` contents,
and the relationship collection of its enclosing document part. -/
structure Cell where
  paragraphs : List String
  hyperlinkRIds : List (Option String)
  instrTexts : List String
  rels : List Rel
deriving DecidableEq, Repr

/-- `cell_text` (source lines 143-146): strip each paragraph text, join with
newlines (the `if p is not None` filter is vacuous: the list holds strings),
then strip the result. -/
def cell_text (c : Cell) : String :=
  pyStrip (String.intercalate "\n" (c.paragraphs.map pyStrip))

/-- Substring containment, Python `needle in hay`. -/
def containsSub (needle : List Char) : List Char → Bool
  | [] => needle.isEmpty
  | c :: t => needle.isPrefixOf (c :: t) || containsSub needle t

/-- Attempt the pattern HYPERLINK, one or more spaces, a quoted non-empty
URL, anchored at the head of the character list.  Both quantifiers of the
source regex are greedy and deterministic here, so no backtracking is
needed. -/
def matchHyperlinkAt (cs : List Char) : Option String :=
  if "HYPERLINK".data.isPrefixOf cs then
    let rest := cs.drop 9
    let sp := rest.takeWhile pySpace
    if sp.isEmpty then none
    else
      match rest.drop sp.length with
      | '"' :: rest2 =>
          let cap := rest2.takeWhile (fun c => !(c = '"'))
          if cap.isEmpty then none
          else
            match rest2.drop cap.length with
            | '"' :: _ => some (String.mk cap)
            | _ => none
      | _ => none
  else none

/-- `re.search`: try the pattern at every position, left to right. -/
def searchHyperlink : List Char → Option String
  | [] => none
  | c :: t =>
      match matchHyperlinkAt (c :: t) with
      | some m => some m
      | none => searchHyperlink t

/-- The field-code loop of `first_hyperlink_url` (source lines 169-174). -/
def firstFieldCodeUrl : List String → Option String
  | [] => none
  | t :: rest =>
      if containsSub "HYPERLINK".data t.data then
        match searchHyperlink t.data with
        | some m => some m
        | none => firstFieldCodeUrl rest
      else firstFieldCodeUrl rest

/-- The structural-hyperlink loop of `first_hyperlink_url` (source lines
161-166): for each `w:hyperlink` with a non-empty `r:id` present in the
relationship collection, return its target when external. -/
def firstStructuralUrl (rels : List Rel) : List (Option String) → Option String
  | [] => none
  | none :: rest => firstStructuralUrl rels rest
  | some rId :: rest =>
      if rId = "" then firstStructuralUrl rels rest
      else
        match rels.find? (fun r => r.rId == rId) with
        | none => firstStructuralUrl rels rest
        | some r =>
            if r.is_external then some r.target_ref
            else firstStructuralUrl rels rest

/-- `first_hyperlink_url` (source lines 149-177): structural hyperlinks take
precedence, then field-code hyperlinks.  The enclosing try/except only
matters for malformed documents, which the model does not produce. -/
def first_hyperlink_url (c : Cell) : Option String :=
  match firstStructuralUrl c.rels c.hyperlinkRIds with
  | some u => some u
  | none => firstFieldCodeUrl c.instrTexts

/-- The relationship loop of `first_embedded_image_bytes` (source lines
185-197).  Reaching an external relationship raises `ValueError` out of the
`hasattr` probe, which the bare `except` turns into `None`; an internal
relationship always targets a part carrying a content type. -/
def firstImageInRels : List Rel → Option (Bytes × String)
  | [] => none
  | r :: rest =>
      match r.target_part with
      | none => none
      | some p =>
          if "image/".data.isPrefixOf p.content_type.data then some (p.blob, p.content_type)
          else firstImageInRels rest

/-- `first_embedded_image_bytes` (source lines 180-200). -/
def first_embedded_image_bytes (c : Cell) : Option (Bytes × String) :=
  firstImageInRels c.rels

/-- Outcome of one HTTP GET: a raised exception (connection error, timeout,
invalid URL) or a response with status, body and optional Content-Type. -/
inductive HttpResult
  | exn
  | resp (status : Nat) (content : Bytes) (contentType : Option String)
deriving DecidableEq, Repr

/-- The HTTP stack: URL and timeout to outcome. -/
abbrev Http := String → Nat → HttpResult

/-- `download_url_bytes` (source lines 204-212): GET with timeout 20;
`raise_for_status` raises exactly for statuses 400-599; every exception is
caught and becomes `none`. -/
def download_url_bytes (http : Http) (url : String) : Option (Bytes × Option String) :=
  match http url 20 with
  | .exn => none
  | .resp status content contentType =>
      if 400 ≤ status ∧ status ≤ 599 then none else some (content, contentType)

/-- A file stored in Drive.  `content` is the uploaded media body (absent
for folders). -/
structure DriveFile where
  id : String
  name : String
  mimeType : String
  trashed : Bool
  parents : List String
  content : Option (Bytes × String)
deriving DecidableEq, Repr

/-- The Drive service state: stored files in creation order, a counter
generating fresh file ids, and the ids granted anyone-reader permission. -/
structure DriveState where
  files : List DriveFile
  nextId : Nat
  publicReaders : List String
deriving DecidableEq, Repr

/-- The id Drive assigns to the next created file. -/
def freshId (s : DriveState) : String :=
  "f" ++ toString s.nextId

/-- MIME type of a Drive folder. -/
def folderMime : String := "application/vnd.google-apps.folder"

/-- The `files().list` query of `find_or_create_folder` (source lines 62-76):
exact name, folder MIME type, not trashed, page size 10.  The query string
escapes quotes in the name; the model compares names directly. -/
def queryFolders (s : DriveState) (name : String) : List DriveFile :=
  (s.files.filter (fun f => f.name == name && f.mimeType == folderMime && !f.trashed)).take 10

/-- `find_or_create_folder` (source lines 59-88): return the first listed
match, else create a folder with that name and return its fresh id.  The
try/except around the list call only matters when the service fails, which
the pure model does not produce. -/
def find_or_create_folder (s : DriveState) (name : String) : String × DriveState :=
  match (queryFolders s name).head? with
  | some f => (f.id, s)
  | none =>
      let fid := freshId s
      (fid,
        { files := s.files ++ [{ id := fid, name := name, mimeType := folderMime,
                                 trashed := false, parents := [], content := none }],
          nextId := s.nextId + 1,
          publicReaders := s.publicReaders })

/-- Outcome of one `permissions().create` call against the service. -/
inductive PermCallResult
  | ok
  | httpError (status : Nat)
  | otherExn (tag : Nat)
deriving DecidableEq, Repr

/-- What `set_public_anyone_reader` does as a whole Python call: return, or
raise an `HttpError`, or raise some other exception. -/
inductive PyOutcome
  | done
  | raisedHttp (status : Nat)
  | raisedOther (tag : Nat)
deriving DecidableEq, Repr

/-- Lift one service-call outcome to the caller-visible outcome. -/
def outcomeOfCall : PermCallResult → PyOutcome
  | .ok => .done
  | .httpError s => .raisedHttp s
  | .otherExn t => .raisedOther t

/-- The statuses the except-branch of `set_public_anyone_reader` retries. -/
def retryableStatus (s : Nat) : Bool :=
  s = 403 || s = 429 || s = 500 || s = 503

/-- `set_public_anyone_reader` (source lines 92-110) against a service whose
attempt number `n` yields `call n`.  Only `HttpError` is caught; a retryable
status sleeps then repeats the call once, letting the second outcome
propagate either way; every other error re-raises at once.  The result pairs
the outcome with the number of create calls issued. -/
def set_public_anyone_reader (call : Nat → PermCallResult) : PyOutcome × Nat :=
  match call 0 with
  | .ok => (.done, 1)
  | .otherExn t => (.raisedOther t, 1)
  | .httpError s =>
      if retryableStatus s then (outcomeOfCall (call 1), 2)
      else (.raisedHttp s, 1)

/-- Grant anyone-reader on a file in the pure Drive state (the success path
of `set_public_anyone_reader`, as used inside `upload_image_bytes`). -/
def drive_set_public (s : DriveState) (fid : String) : DriveState :=
  { s with publicReaders := s.publicReaders ++ [fid] }

/-- The MIME default of `upload_image_bytes`: Python `if not mime` treats
both `None` and the empty string as absent. -/
def mimeOrDefault : Option String → String
  | none => "application/octet-stream"
  | some m => if m = "" then "application/octet-stream" else m

/-- The base of every public view URL the script emits (source line 125). -/
def driveUrlBase : String := "https://drive.google.com/uc?export=view&id="

/-- The public view URL for a file id (source line 125). -/
def publicViewUrl (fid : String) : String :=
  driveUrlBase ++ fid

/-- `upload_image_bytes` (source lines 113-125): create the file under the
folder with the media body, grant public read, return the view URL. -/
def upload_image_bytes (s : DriveState) (folder_id name_hint : String)
    (data : Bytes) (mime : Option String) : String × DriveState :=
  let m := mimeOrDefault mime
  let fid := freshId s
  let s1 : DriveState :=
    { files := s.files ++ [{ id := fid, name := name_hint, mimeType := m,
                             trashed := false, parents := [folder_id],
                             content := some (data, m) }],
      nextId := s.nextId + 1,
      publicReaders := s.publicReaders }
  (publicViewUrl fid, drive_set_public s1 fid)

/-- The fallback chain of the row loop (source lines 269-296) on the photo
cell: embedded image first, then hyperlink plus fetch, then nothing.  The
Python truthiness tests `if not public_link` and `if url` are kept: an empty
string counts as absent. -/
def resolvePhotoValue (http : Http) (s : DriveState) (folder_id : String)
    (r_i : Nat) (photo_cell : Cell) : Option String × DriveState :=
  let step1 : Option String × DriveState :=
    match first_embedded_image_bytes photo_cell with
    | some (blob, mime) =>
        let r := upload_image_bytes s folder_id ("row" ++ toString r_i ++ "_photo") blob (some mime)
        (some r.1, r.2)
    | none => (none, s)
  if (step1.1.getD "") = "" then
    match first_hyperlink_url photo_cell with
    | some url =>
        if url = "" then (none, step1.2)
        else
          match download_url_bytes http url with
          | some (blob, mime) =>
              let r := upload_image_bytes step1.2 folder_id
                ("row" ++ toString r_i ++ "_photo_from_link") blob mime
              (some r.1, r.2)
          | none => (some url, step1.2)
    | none => (none, step1.2)
  else step1

/-- One iteration of the row loop (source lines 264-296): extract every cell
text, and when a photo column exists and the row is wide enough, replace the
photo value by the resolved link when one was produced. -/
def processOneRow (http : Http) (s : DriveState) (folder_id : String)
    (photo_idx : Option Nat) (r_i : Nat) (row : List Cell) : List String × DriveState :=
  let values := row.map cell_text
  match photo_idx with
  | none => (values, s)
  | some pIdx =>
      if hp : pIdx < row.length then
        let r := resolvePhotoValue http s folder_id r_i row[pIdx]
        match r.1 with
        | some link => (values.set pIdx link, r.2)
        | none => (values, r.2)
      else (values, s)

/-- Python dict assignment `d[k] = v`: update in place when the key exists,
else append. -/
def dictInsert (d : List (String × String)) (k v : String) : List (String × String) :=
  if d.any (fun p => p.1 == k) then
    d.map (fun p => if p.1 == k then (k, v) else p)
  else d ++ [(k, v)]

/-- Python dict lookup. -/
def dictLookup (d : List (String × String)) (k : String) : Option String :=
  (d.find? (fun p => p.1 == k)).map (fun p => p.2)

/-- The key the packing loop uses for header `h` at 0-based index `i`
(source line 301): the header itself when non-empty, else a synthesized
column name. -/
def packKey (h : String) (i : Nat) : String :=
  if h = "" then "Column " ++ toString (i + 1) else h

/-- The packing loop (source lines 299-302), iterating headers with their
indices; a missing value is the empty string. -/
def packRowAux (values : List String) : List String → Nat → List (String × String) → List (String × String)
  | [], _, d => d
  | h :: hs, i, d =>
      packRowAux values hs (i + 1) (dictInsert d (packKey h i) (values.getD i ""))

/-- Pack one output row dict from the headers and the resolved values. -/
def packRow (headers values : List String) : List (String × String) :=
  packRowAux values headers 0 []

/-- The row loop (source lines 263-302), threading the Drive state and the
1-based row counter. -/
def processRows (http : Http) (folder_id : String) (photo_idx : Option Nat)
    (headers : List String) :
    List (List Cell) → Nat → DriveState → List (List (String × String)) × DriveState
  | [], _, s => ([], s)
  | row :: rest, r_i, s =>
      let r1 := processOneRow http s folder_id photo_idx r_i row
      let rd := packRow headers r1.1
      let r2 := processRows http folder_id photo_idx headers rest (r_i + 1) r1.2
      (rd :: r2.1, r2.2)

/-- A table: its column count and its rows of cells. -/
structure Table where
  columnCount : Nat
  rows : List (List Cell)
deriving Repr

/-- A document: its tables. -/
structure Doc where
  tables : List Table
deriving Repr

/-- The synthetic headers `Column 1 .. Column n` (source line 249). -/
def syntheticHeaders (n : Nat) : List String :=
  (List.range n).map (fun i => "Column " ++ toString (i + 1))

/-- Header-likeness (source line 244): the count of non-empty header strings
is at least `max 1 (int(n * 0.6))`.  The float expression `int(n * 0.6)`
equals `(3 * n) / 5` in Nat arithmetic for every realistic column count (the
double rounding of `n * 0.6` cannot cross an integer boundary below `2 ^ 52`),
so the threshold is modelled exactly as Nat division. -/
def header_like (headers : List String) : Bool :=
  decide (max 1 ((3 * headers.length) / 5) ≤ headers.countP (fun h => !(pyStrip h == "")))

/-- The photo-column search (source lines 253-257): first header whose
stripped, lower-cased text occurs in the lower-cased candidate set. -/
def photoIdx (cands : List String) (headers : List String) : Option Nat :=
  headers.findIdx? (fun h => (cands.map String.toLower).contains (pyStrip h).toLower)

/-- Failures of the conversion run. -/
inductive ConvErr
  | noTables
  | indexError
deriving DecidableEq, Repr

/-- The table-selection heuristic (source lines 231-237): first table with at
least 3 columns, else the first table. -/
def select_table (t0 : Table) (tables : List Table) : Table :=
  match tables.find? (fun t => decide (3 ≤ t.columnCount)) with
  | some t => t
  | none => t0

/-- The conversion body on the selected table (source lines 239-306, without
the spreadsheet write): build headers, detect header-likeness, locate the
photo column, resolve the folder once, then process every data row.  Returns
the header order handed to the spreadsheet writer, the packed row dicts, and
the final Drive state. -/
def convert_core (http : Http) (s0 : DriveState) (folder_name : String)
    (cands : List String) (table : Table) :
    Except ConvErr (List String × List (List (String × String)) × DriveState) :=
  match table.rows with
  | [] => .error .indexError
  | first_row :: rest =>
      let headers0 := first_row.map cell_text
      let hd : List String × List (List Cell) :=
        if header_like headers0 then (headers0, rest)
        else (syntheticHeaders first_row.length, first_row :: rest)
      let pIdx := photoIdx cands hd.1
      let fr := find_or_create_folder s0 folder_name
      let pr := processRows http fr.1 pIdx hd.1 hd.2 1 fr.2
      .ok (hd.1, pr.1, pr.2)

/-- `convert_docx_to_excel_with_drive` (source lines 219-306) without the
file I/O: fail when the document has no tables, select a table, convert. -/
def convert_docx_to_excel_with_drive (http : Http) (s0 : DriveState) (doc : Doc)
    (folder_name : String) (cands : List String) :
    Except ConvErr (List String × List (List (String × String)) × DriveState) :=
  match doc.tables with
  | [] => .error .noTables
  | t0 :: _ => convert_core http s0 folder_name cands (select_table t0 doc.tables)

/-! Concrete inputs used to instantiate the theorems below. -/

/-- An HTTP stack that answers every request with a 200 PNG. -/
def wHttpOk : Http := fun _ _ => .resp 200 [9, 9] (some "image/png")

/-- An HTTP stack on which every request raises. -/
def wHttpDown : Http := fun _ _ => .exn

/-- An HTTP stack that answers every request with 304 Not Modified. -/
def wHttp304 : Http := fun _ _ => .resp 304 [1] (some "image/png")

/-- A JPEG part of the document package. -/
def wImagePart : Part := { content_type := "image/jpeg", blob := [1, 2, 3] }

/-- A cell holding both an embedded image and an external hyperlink. -/
def wImageCell : Cell :=
  { paragraphs := ["pic"],
    hyperlinkRIds := [some "rId9"],
    instrTexts := [],
    rels := [{ rId := "rId5", is_external := false, target_ref := "media/image1.jpeg",
               target_part := some wImagePart },
             { rId := "rId9", is_external := true, target_ref := "http://x/a.jpg",
               target_part := none }] }

/-- A cell holding only an external hyperlink. -/
def wLinkCell : Cell :=
  { paragraphs := ["see photo"],
    hyperlinkRIds := [some "rId9"],
    instrTexts := [],
    rels := [{ rId := "rId9", is_external := true, target_ref := "http://x/a.jpg",
               target_part := none }] }

/-- A cell holding plain text only. -/
def wTextCell : Cell :=
  { paragraphs := ["  Alice  ", "B2"], hyperlinkRIds := [], instrTexts := [], rels := [] }

/-- The empty Drive state. -/
def wDrive0 : DriveState := { files := [], nextId := 0, publicReaders := [] }

/-- A two-column table whose only row is text-bearing. -/
def wTable : Table := { columnCount := 2, rows := [[wTextCell, wTextCell]] }

/-- A permission service failing with 429 first, 500 on the retry. -/
def wPermCalls : Nat → PermCallResult :=
  fun n => if n = 0 then .httpError 429 else .httpError 500

/-! Helper lemmas. -/

theorem driveUrlBase_length : driveUrlBase.length = 43 := rfl

theorem publicViewUrl_length (fid : String) : (publicViewUrl fid).length = 43 + fid.length := by
  rw [publicViewUrl, String.length_append, driveUrlBase_length]

theorem publicViewUrl_ne_empty (fid : String) : publicViewUrl fid ≠ "" := by
  intro h
  have h2 := congrArg String.length h
  rw [publicViewUrl_length] at h2
  simp at h2

theorem ne_publicViewUrl_of_short (u : String) (h : u.length < 43) (fid : String) :
    u ≠ publicViewUrl fid := by
  intro he
  have h2 := congrArg String.length he
  rw [publicViewUrl_length] at h2
  omega

/-- C1: on a photo cell with a detectable embedded image, the fallback chain
resolves to the public view URL of the freshly uploaded embedded bytes, the
uploaded file holds exactly those bytes, and the result does not depend on
the HTTP stack (so it is never hyperlink-derived, even when the cell also
carries a hyperlink). -/
theorem embedded_image_takes_precedence (http http2 : Http) (s : DriveState)
    (folder_id : String) (r_i : Nat) (c : Cell) (blob : Bytes) (mime : String)
    (hemb : first_embedded_image_bytes c = some (blob, mime)) :
    (resolvePhotoValue http s folder_id r_i c).1 = some (publicViewUrl (freshId s)) ∧
    (((resolvePhotoValue http s folder_id r_i c).2).files.getLast?).map (fun f => f.content) =
      some (some (blob, mimeOrDefault (some mime))) ∧
    resolvePhotoValue http s folder_id r_i c = resolvePhotoValue http2 s folder_id r_i c := by
  refine ⟨?_, ?_, ?_⟩ <;>
    simp [resolvePhotoValue, hemb, upload_image_bytes, drive_set_public,
      publicViewUrl_ne_empty, List.getLast?_concat]

theorem embedded_image_takes_precedence_check :
    (resolvePhotoValue wHttpOk wDrive0 "fld" 1 wImageCell).1 =
      some (publicViewUrl (freshId wDrive0)) ∧
    (((resolvePhotoValue wHttpOk wDrive0 "fld" 1 wImageCell).2).files.getLast?).map
        (fun f => f.content) = some (some ([1, 2, 3], mimeOrDefault (some "image/jpeg"))) ∧
    resolvePhotoValue wHttpOk wDrive0 "fld" 1 wImageCell =
      resolvePhotoValue wHttpDown wDrive0 "fld" 1 wImageCell :=
  embedded_image_takes_precedence wHttpOk wHttpDown wDrive0 "fld" 1 wImageCell
    [1, 2, 3] "image/jpeg" rfl

/-- C2: on a photo cell with no embedded image and a non-empty hyperlink
whose fetch succeeds, the resolved value is the public view URL of the
freshly uploaded fetched bytes; whenever the original URL is not itself a
public view URL it differs from the resolved value. -/
theorem fetched_link_rehosted (http : Http) (s : DriveState) (folder_id : String)
    (r_i : Nat) (c : Cell) (url : String) (blob : Bytes) (mime : Option String)
    (hemb : first_embedded_image_bytes c = none)
    (hurl : first_hyperlink_url c = some url)
    (hne : url ≠ "")
    (hfetch : download_url_bytes http url = some (blob, mime))
    (hnd : ∀ fid, url ≠ publicViewUrl fid) :
    (resolvePhotoValue http s folder_id r_i c).1 = some (publicViewUrl (freshId s)) ∧
    (resolvePhotoValue http s folder_id r_i c).1 ≠ some url ∧
    (((resolvePhotoValue http s folder_id r_i c).2).files.getLast?).map (fun f => f.content) =
      some (some (blob, mimeOrDefault mime)) := by
  have h1 : (resolvePhotoValue http s folder_id r_i c).1 = some (publicViewUrl (freshId s)) := by
    simp [resolvePhotoValue, hemb, hurl, hne, hfetch, upload_image_bytes, drive_set_public]
  refine ⟨h1, ?_, ?_⟩
  · rw [h1]
    intro hcontra
    injection hcontra with h2
    exact hnd (freshId s) h2.symm
  · simp [resolvePhotoValue, hemb, hurl, hne, hfetch, upload_image_bytes, drive_set_public,
      List.getLast?_concat]

theorem fetched_link_rehosted_check :
    (resolvePhotoValue wHttpOk wDrive0 "fld" 1 wLinkCell).1 =
      some (publicViewUrl (freshId wDrive0)) ∧
    (resolvePhotoValue wHttpOk wDrive0 "fld" 1 wLinkCell).1 ≠ some "http://x/a.jpg" ∧
    (((resolvePhotoValue wHttpOk wDrive0 "fld" 1 wLinkCell).2).files.getLast?).map
        (fun f => f.content) = some (some ([9, 9], mimeOrDefault (some "image/png"))) :=
  fetched_link_rehosted wHttpOk wDrive0 "fld" 1 wLinkCell "http://x/a.jpg" [9, 9]
    (some "image/png") rfl rfl (by decide) rfl
    (fun fid => ne_publicViewUrl_of_short "http://x/a.jpg" (by decide) fid)

/-- C3: on a photo cell with no embedded image and a non-empty hyperlink
whose fetch fails, the resolved value is exactly the original URL text and
the Drive state is untouched (no upload, no error). -/
theorem dead_link_keeps_original_url (http : Http) (s : DriveState) (folder_id : String)
    (r_i : Nat) (c : Cell) (url : String)
    (hemb : first_embedded_image_bytes c = none)
    (hurl : first_hyperlink_url c = some url)
    (hne : url ≠ "")
    (hfetch : download_url_bytes http url = none) :
    resolvePhotoValue http s folder_id r_i c = (some url, s) := by
  simp [resolvePhotoValue, hemb, hurl, hne, hfetch]

theorem dead_link_keeps_original_url_check :
    resolvePhotoValue wHttpDown wDrive0 "fld" 1 wLinkCell = (some "http://x/a.jpg", wDrive0) :=
  dead_link_keeps_original_url wHttpDown wDrive0 "fld" 1 wLinkCell "http://x/a.jpg"
    rfl rfl (by decide) rfl

/-- C4: on a photo cell with neither an embedded image nor a hyperlink, the
row values are exactly the cell texts (the photo value included) and the
Drive state is untouched. -/
theorem plain_cell_passthrough (http : Http) (s : DriveState) (folder_id : String)
    (pIdx r_i : Nat) (row : List Cell) (hp : pIdx < row.length)
    (hemb : first_embedded_image_bytes row[pIdx] = none)
    (hurl : first_hyperlink_url row[pIdx] = none) :
    processOneRow http s folder_id (some pIdx) r_i row = (row.map cell_text, s) := by
  have hres : resolvePhotoValue http s folder_id r_i row[pIdx] = (none, s) := by
    simp [resolvePhotoValue, hemb, hurl]
  simp [processOneRow, hp, hres]

theorem plain_cell_passthrough_check :
    processOneRow wHttpOk wDrive0 "fld" (some 0) 1 [wTextCell] =
      ([wTextCell].map cell_text, wDrive0) :=
  plain_cell_passthrough wHttpOk wDrive0 "fld" 0 1 [wTextCell] (by decide) rfl rfl

/-- C6: the permission grant retries exactly once (two create calls) when
the first call fails with HTTP 403, 429, 500 or 503, propagating whatever
the retry yields; a first failure with any other status, or any non-HTTP
exception, propagates immediately after a single call. -/
theorem permission_retry_policy (call : Nat → PermCallResult) (s : Nat) :
    (retryableStatus s = true ↔ (s = 403 ∨ s = 429 ∨ s = 500 ∨ s = 503)) ∧
    (call 0 = .httpError s → retryableStatus s = true →
        set_public_anyone_reader call = (outcomeOfCall (call 1), 2)) ∧
    (call 0 = .httpError s → retryableStatus s = false →
        set_public_anyone_reader call = (.raisedHttp s, 1)) ∧
    (∀ t, call 0 = .otherExn t → set_public_anyone_reader call = (.raisedOther t, 1)) := by
  refine ⟨by simp [retryableStatus, or_assoc], ?_, ?_, ?_⟩
  · intro h0 hr
    simp [set_public_anyone_reader, h0, hr]
  · intro h0 hr
    simp [set_public_anyone_reader, h0, hr]
  · intro t h0
    simp [set_public_anyone_reader, h0]

theorem permission_retry_policy_check :
    set_public_anyone_reader wPermCalls = (.raisedHttp 500, 2) :=
  (permission_retry_policy wPermCalls 429).2.1 rfl rfl

/-- C7 counterexample: a 304 response is not a 2xx status, yet the fetch
returns its body rather than no data. -/
theorem non2xx_not_always_none :
    (¬ (200 ≤ 304 ∧ 304 ≤ 299)) ∧
    download_url_bytes wHttp304 "http://x/b.png" = some ([1], some "image/png") :=
  ⟨by omega, rfl⟩

/-- C7 (amended): the fetch returns no data exactly on a raised exception
(network error, timeout, invalid URL) or a 4xx/5xx status of the response
obtained with timeout 20, and otherwise returns the body and content type;
it is a total function, so it never raises. -/
theorem fetch_none_iff_error_or_4xx5xx (http : Http) (url : String) :
    (http url 20 = .exn → download_url_bytes http url = none) ∧
    (∀ status content contentType, http url 20 = .resp status content contentType →
       ((400 ≤ status ∧ status ≤ 599) → download_url_bytes http url = none) ∧
       (¬ (400 ≤ status ∧ status ≤ 599) →
           download_url_bytes http url = some (content, contentType))) := by
  refine ⟨fun h => by simp [download_url_bytes, h], ?_⟩
  intro st c m h
  constructor
  · intro hr
    simp only [download_url_bytes, h]
    rw [if_pos hr]
  · intro hr
    simp only [download_url_bytes, h]
    rw [if_neg hr]

theorem fetch_none_iff_error_or_4xx5xx_check :
    download_url_bytes wHttpOk "http://x/a.jpg" = some ([9, 9], some "image/png") :=
  ((fetch_none_iff_error_or_4xx5xx wHttpOk "http://x/a.jpg").2 200 [9, 9]
    (some "image/png") rfl).2 (by omega)

/-- C8: folder resolution is idempotent: composing `find_or_create_folder`
with itself on the same name returns the same id and the same storage state
as the first call, so the second call creates nothing. -/
theorem find_or_create_folder_idempotent (s : DriveState) (name : String) :
    find_or_create_folder (find_or_create_folder s name).2 name =
      find_or_create_folder s name := by
  cases h : (queryFolders s name).head? with
  | some f =>
      have h1 : find_or_create_folder s name = (f.id, s) := by
        unfold find_or_create_folder
        rw [h]
      rw [h1]
      exact h1
  | none =>
      have h0 : queryFolders s name = [] := List.head?_eq_none_iff.mp h
      have hfil : s.files.filter
          (fun f => f.name == name && f.mimeType == folderMime && !f.trashed) = [] := by
        unfold queryFolders at h0
        rcases List.take_eq_nil_iff.mp h0 with h10 | hl
        · omega
        · exact hl
      have h1 : find_or_create_folder s name =
          (freshId s,
            { files := s.files ++ [{ id := freshId s, name := name, mimeType := folderMime,
                                     trashed := false, parents := [], content := none }],
              nextId := s.nextId + 1,
              publicReaders := s.publicReaders }) := by
        unfold find_or_create_folder
        rw [h]
      rw [h1]
      have hq : queryFolders
          { files := s.files ++ [{ id := freshId s, name := name, mimeType := folderMime,
                                   trashed := false, parents := [], content := none }],
            nextId := s.nextId + 1,
            publicReaders := s.publicReaders } name =
          [{ id := freshId s, name := name, mimeType := folderMime,
             trashed := false, parents := [], content := none }] := by
        unfold queryFolders
        rw [List.filter_append, hfil]
        simp [folderMime]
      unfold find_or_create_folder
      rw [hq]
      rfl

theorem processRows_length (http : Http) (folder_id : String) (photo_idx : Option Nat)
    (headers : List String) :
    ∀ (rows : List (List Cell)) (r_i : Nat) (s : DriveState),
      ((processRows http folder_id photo_idx headers rows r_i s).1).length = rows.length
  | [], _, _ => rfl
  | row :: rest, r_i, s => by
      simp [processRows,
        processRows_length http folder_id photo_idx headers rest (r_i + 1)
          (processOneRow http s folder_id photo_idx r_i row).2]

/-- C5: the first row of the selected table is treated as a header exactly
when its count of non-empty cell texts reaches `max 1 ((3 * n) / 5)` for `n`
columns (the code form of the 60 percent threshold); a header-like first row
is excluded from the data rows, while a first row below the threshold yields
synthetic `Column N` headers and is itself processed as data. -/
theorem header_threshold_split (http : Http) (s0 : DriveState) (folder_name : String)
    (cands : List String) (table : Table) (first_row : List Cell) (rest : List (List Cell))
    (hrows : table.rows = first_row :: rest) :
    (header_like (first_row.map cell_text) = true ↔
       max 1 ((3 * (first_row.map cell_text).length) / 5) ≤
         (first_row.map cell_text).countP (fun h => !(pyStrip h == ""))) ∧
    (header_like (first_row.map cell_text) = true →
       ∃ out s1, convert_core http s0 folder_name cands table =
           .ok (first_row.map cell_text, out, s1) ∧ out.length = rest.length) ∧
    (header_like (first_row.map cell_text) = false →
       ∃ out s1, convert_core http s0 folder_name cands table =
           .ok (syntheticHeaders first_row.length, out, s1) ∧
         out.length = rest.length + 1) := by
  refine ⟨by simp [header_like], ?_, ?_⟩
  · intro hl
    unfold convert_core
    rw [hrows]
    simp only [hl, if_true]
    exact ⟨_, _, rfl, processRows_length _ _ _ _ _ _ _⟩
  · intro hl
    unfold convert_core
    rw [hrows]
    simp only [hl, Bool.false_eq_true, if_false]
    exact ⟨_, _, rfl, processRows_length _ _ _ _ _ _ _⟩

theorem header_threshold_split_check :
    (header_like ([wTextCell, wTextCell].map cell_text) = true ↔
       max 1 ((3 * ([wTextCell, wTextCell].map cell_text).length) / 5) ≤
         ([wTextCell, wTextCell].map cell_text).countP (fun h => !(pyStrip h == ""))) ∧
    (header_like ([wTextCell, wTextCell].map cell_text) = true →
       ∃ out s1, convert_core wHttpOk wDrive0 "DOCX Image Uploads" ["Photo"] wTable =
           .ok ([wTextCell, wTextCell].map cell_text, out, s1) ∧
         out.length = ([] : List (List Cell)).length) ∧
    (header_like ([wTextCell, wTextCell].map cell_text) = false →
       ∃ out s1, convert_core wHttpOk wDrive0 "DOCX Image Uploads" ["Photo"] wTable =
           .ok (syntheticHeaders ([wTextCell, wTextCell] : List Cell).length, out, s1) ∧
         out.length = ([] : List (List Cell)).length + 1) :=
  header_threshold_split wHttpOk wDrive0 "DOCX Image Uploads" ["Photo"] wTable
    [wTextCell, wTextCell] [] rfl

theorem resolve_files_le (http : Http) (s : DriveState) (folder_id : String)
    (r_i : Nat) (c : Cell) :
    ((resolvePhotoValue http s folder_id r_i c).2).files.length ≤ s.files.length + 1 := by
  cases hemb : first_embedded_image_bytes c with
  | some bm =>
      obtain ⟨blob, mime⟩ := bm
      simp [resolvePhotoValue, hemb, upload_image_bytes, drive_set_public,
        publicViewUrl_ne_empty]
  | none =>
      cases hurl : first_hyperlink_url c with
      | none => simp [resolvePhotoValue, hemb, hurl]
      | some url =>
          by_cases hu : url = ""
          · simp [resolvePhotoValue, hemb, hurl, hu]
          · cases hfetch : download_url_bytes http url with
            | none => simp [resolvePhotoValue, hemb, hurl, hu, hfetch]
            | some bm =>
                obtain ⟨blob, mime⟩ := bm
                simp [resolvePhotoValue, hemb, hurl, hu, hfetch, upload_image_bytes,
                  drive_set_public]

theorem processOneRow_eq_of_lt (http : Http) (s : DriveState) (folder_id : String)
    (p r_i : Nat) (row : List Cell) (hp : p < row.length) :
    processOneRow http s folder_id (some p) r_i row =
      match (resolvePhotoValue http s folder_id r_i row[p]).1 with
      | some link =>
          ((row.map cell_text).set p link, (resolvePhotoValue http s folder_id r_i row[p]).2)
      | none => (row.map cell_text, (resolvePhotoValue http s folder_id r_i row[p]).2) := by
  simp only [processOneRow, dif_pos hp]

theorem processOneRow_eq_of_ge (http : Http) (s : DriveState) (folder_id : String)
    (p r_i : Nat) (row : List Cell) (hp : ¬ p < row.length) :
    processOneRow http s folder_id (some p) r_i row = (row.map cell_text, s) := by
  simp only [processOneRow, dif_neg hp]

/-- C9: a row iteration never changes any value outside the photo column
(every non-photo output value is the extracted cell text), and it adds at
most one file to the Drive state, so the photo replacement and its upload
happen at most once per row. -/
theorem non_photo_columns_preserved (http : Http) (s : DriveState) (folder_id : String)
    (photo_idx : Option Nat) (r_i : Nat) (row : List Cell) :
    (∀ i : Nat, photo_idx ≠ some i →
        ((processOneRow http s folder_id photo_idx r_i row).1)[i]? =
          (row.map cell_text)[i]?) ∧
    ((processOneRow http s folder_id photo_idx r_i row).2).files.length ≤
      s.files.length + 1 := by
  constructor
  · intro i hi
    cases photo_idx with
    | none => simp [processOneRow]
    | some p =>
        have hpi : p ≠ i := fun he => hi (by rw [he])
        by_cases hp : p < row.length
        · rw [processOneRow_eq_of_lt http s folder_id p r_i row hp]
          cases hr : (resolvePhotoValue http s folder_id r_i row[p]).1 with
          | none => simp
          | some link => simp [List.getElem?_set_ne hpi]
        · rw [processOneRow_eq_of_ge http s folder_id p r_i row hp]
  · cases photo_idx with
    | none => simp [processOneRow]
    | some p =>
        by_cases hp : p < row.length
        · rw [processOneRow_eq_of_lt http s folder_id p r_i row hp]
          cases hr : (resolvePhotoValue http s folder_id r_i row[p]).1 with
          | none => simpa using resolve_files_le http s folder_id r_i row[p]
          | some link => simpa using resolve_files_le http s folder_id r_i row[p]
        · rw [processOneRow_eq_of_ge http s folder_id p r_i row hp]
          exact Nat.le_succ _

theorem non_photo_columns_preserved_check :
    ((processOneRow wHttpOk wDrive0 "fld" (some 0) 1 [wImageCell, wTextCell]).1)[1]? =
      ([wImageCell, wTextCell].map cell_text)[1]? ∧
    ((processOneRow wHttpOk wDrive0 "fld" (some 0) 1 [wImageCell, wTextCell]).2).files.length ≤
      wDrive0.files.length + 1 :=
  ⟨(non_photo_columns_preserved wHttpOk wDrive0 "fld" (some 0) 1
      [wImageCell, wTextCell]).1 1 (by decide),
   (non_photo_columns_preserved wHttpOk wDrive0 "fld" (some 0) 1
      [wImageCell, wTextCell]).2⟩

theorem find?_update_self (k v : String) :
    ∀ d : List (String × String), d.any (fun p => p.1 == k) = true →
      (d.map (fun p => if p.1 == k then (k, v) else p)).find? (fun p => p.1 == k) = some (k, v)
  | [], h => by simp at h
  | p :: t, h => by
      rw [List.map_cons]
      by_cases hp : (p.1 == k) = true
      · rw [if_pos hp]
        exact List.find?_cons_of_pos _ (by simp)
      · have hp2 : (p.1 == k) = false := by simpa using hp
        have ht : t.any (fun q => q.1 == k) = true := by
          simpa [List.any_cons, hp2] using h
        rw [if_neg hp, @List.find?_cons_of_neg _ (fun q => q.1 == k) p
          (t.map (fun q => if q.1 == k then (k, v) else q)) hp]
        exact find?_update_self k v t ht

theorem find?_update_ne (k v k2 : String) (hk : k2 ≠ k) :
    ∀ d : List (String × String),
      (d.map (fun p => if p.1 == k then (k, v) else p)).find? (fun p => p.1 == k2) =
        d.find? (fun p => p.1 == k2)
  | [] => rfl
  | p :: t => by
      rw [List.map_cons]
      by_cases hp : (p.1 == k) = true
      · rw [if_pos hp]
        have hpk : p.1 = k := by simpa using hp
        have h2 : ¬ ((((k, v) : String × String)).1 == k2) = true := by
          simp only [beq_iff_eq]
          exact fun he => hk he.symm
        have h3 : ¬ (p.1 == k2) = true := by
          simp only [beq_iff_eq, hpk]
          exact fun he => hk he.symm
        rw [@List.find?_cons_of_neg _ (fun q => q.1 == k2) (k, v)
          (t.map (fun q => if q.1 == k then (k, v) else q)) h2,
          @List.find?_cons_of_neg _ (fun q => q.1 == k2) p t h3]
        exact find?_update_ne k v k2 hk t
      · rw [if_neg hp]
        by_cases hq : (p.1 == k2) = true
        · rw [@List.find?_cons_of_pos _ (fun q => q.1 == k2) p
            (t.map (fun q => if q.1 == k then (k, v) else q)) hq,
            @List.find?_cons_of_pos _ (fun q => q.1 == k2) p t hq]
        · rw [@List.find?_cons_of_neg _ (fun q => q.1 == k2) p
            (t.map (fun q => if q.1 == k then (k, v) else q)) hq,
            @List.find?_cons_of_neg _ (fun q => q.1 == k2) p t hq]
          exact find?_update_ne k v k2 hk t

theorem dictLookup_insert_self (d : List (String × String)) (k v : String) :
    dictLookup (dictInsert d k v) k = some v := by
  unfold dictInsert
  by_cases h : d.any (fun p => p.1 == k) = true
  · rw [if_pos h]
    unfold dictLookup
    rw [find?_update_self k v d h]
    rfl
  · rw [if_neg h]
    unfold dictLookup
    rw [List.find?_append]
    have hnone : d.find? (fun p => p.1 == k) = none := by
      rw [List.find?_eq_none]
      intro x hx hpx
      exact h (List.any_eq_true.mpr ⟨x, hx, hpx⟩)
    rw [hnone]
    simp

theorem dictLookup_insert_ne (d : List (String × String)) (k v k2 : String) (hk : k2 ≠ k) :
    dictLookup (dictInsert d k v) k2 = dictLookup d k2 := by
  unfold dictInsert
  by_cases h : d.any (fun p => p.1 == k) = true
  · rw [if_pos h]
    unfold dictLookup
    rw [find?_update_ne k v k2 hk d]
  · rw [if_neg h]
    unfold dictLookup
    rw [List.find?_append]
    have h1 : ([(k, v)]).find? (fun p => p.1 == k2) = none := by
      have h2 : ((k : String) == k2) = false := beq_eq_false_iff_ne.mpr (Ne.symm hk)
      simp [List.find?, h2]
    rw [h1, Option.or_none]

theorem packRowAux_lookup_of_miss (values : List String) (k : String) :
    ∀ (hs : List String) (i : Nat) (d : List (String × String)),
      (∀ j h, hs[j]? = some h → packKey h (i + j) ≠ k) →
      dictLookup (packRowAux values hs i d) k = dictLookup d k
  | [], _, _, _ => rfl
  | h0 :: t, i, d, hmiss => by
      have hk0 : packKey h0 i ≠ k := by
        have h2 := hmiss 0 h0 (by simp)
        simpa using h2
      have hshift : ∀ j h, t[j]? = some h → packKey h (i + 1 + j) ≠ k := by
        intro j h hget
        have h2 := hmiss (j + 1) h (by simpa using hget)
        have h3 : i + (j + 1) = i + 1 + j := by omega
        rw [h3] at h2
        exact h2
      simp only [packRowAux]
      rw [packRowAux_lookup_of_miss values k t (i + 1) _ hshift]
      exact dictLookup_insert_ne d (packKey h0 i) (values.getD i "") k (Ne.symm hk0)

theorem packRowAux_lookup_of_last_hit (values : List String) (k : String) :
    ∀ (hs : List String) (j i : Nat) (d : List (String × String)) (hdr : String),
      hs[j]? = some hdr → packKey hdr (i + j) = k →
      (∀ j2 h, j < j2 → hs[j2]? = some h → packKey h (i + j2) ≠ k) →
      dictLookup (packRowAux values hs i d) k = some (values.getD (i + j) "")
  | [], j, _, _, _, hget, _, _ => by simp at hget
  | h0 :: t, 0, i, d, hdr, hget, hkey, hafter => by
      have he : h0 = hdr := by simpa using hget
      have hk : packKey h0 i = k := by
        rw [he]
        simpa using hkey
      have hshift : ∀ j2 h, t[j2]? = some h → packKey h (i + 1 + j2) ≠ k := by
        intro j2 h hget2
        have h4 := hafter (j2 + 1) h (by omega) (by simpa using hget2)
        have h3 : i + (j2 + 1) = i + 1 + j2 := by omega
        rw [h3] at h4
        exact h4
      simp only [packRowAux]
      rw [packRowAux_lookup_of_miss values k t (i + 1) _ hshift, hk,
        dictLookup_insert_self]
      simp
  | h0 :: t, j + 1, i, d, hdr, hget, hkey, hafter => by
      have hget2 : t[j]? = some hdr := by simpa using hget
      have hkey2 : packKey hdr (i + 1 + j) = k := by
        have h3 : i + (j + 1) = i + 1 + j := by omega
        rw [← h3]
        exact hkey
      have hafter2 : ∀ j2 h, j < j2 → t[j2]? = some h → packKey h (i + 1 + j2) ≠ k := by
        intro j2 h hj hgt
        have h4 := hafter (j2 + 1) h (by omega) (by simpa using hgt)
        have h3 : i + (j2 + 1) = i + 1 + j2 := by omega
        rw [h3] at h4
        exact h4
      simp only [packRowAux]
      rw [packRowAux_lookup_of_last_hit values k t j (i + 1) _ hdr hget2 hkey2 hafter2]
      have h3 : i + 1 + j = i + (j + 1) := by omega
      rw [h3]

theorem packKey_ne_empty (h : String) (n : Nat) : packKey h n ≠ "" := by
  unfold packKey
  by_cases he : h = ""
  · rw [if_pos he]
    intro hcontra
    have h2 := congrArg String.length hcontra
    rw [String.length_append, show (("Column " : String).length) = 7 from rfl,
      show (("" : String).length) = 0 from rfl] at h2
    omega
  · rw [if_neg he]
    exact he

theorem packRow_lookup_empty (headers values : List String) :
    dictLookup (packRow headers values) "" = none := by
  unfold packRow
  rw [packRowAux_lookup_of_miss values "" headers 0 []
    (fun j h _ => packKey_ne_empty h (0 + j))]
  rfl

/-- C10: when a header string at index i is empty, the packed output row
stores that cell value under the synthesized key `Column i+1` while no key
of the packed row equals the empty header name, which nevertheless stays in
the header order handed to the spreadsheet writer; so the value is not
associated with the declared output column of that index.  The side
condition keeps any later header from clobbering the synthesized key. -/
theorem empty_header_key_misalignment (headers values : List String) (i : Nat)
    (hi : headers[i]? = some "")
    (hafter : ∀ j h, i < j → headers[j]? = some h →
        packKey h j ≠ "Column " ++ toString (i + 1)) :
    dictLookup (packRow headers values) ("Column " ++ toString (i + 1)) =
      some (values.getD i "") ∧
    dictLookup (packRow headers values) "" = none ∧
    "" ∈ headers := by
  refine ⟨?_, packRow_lookup_empty headers values, List.getElem?_mem hi⟩
  unfold packRow
  have hkey : packKey "" (0 + i) = "Column " ++ toString (i + 1) := by
    simp [packKey]
  have hafter2 : ∀ j2 h, i < j2 → headers[j2]? = some h →
      packKey h (0 + j2) ≠ "Column " ++ toString (i + 1) := by
    intro j2 h hj hget
    have h4 := hafter j2 h hj hget
    simpa using h4
  rw [packRowAux_lookup_of_last_hit values ("Column " ++ toString (i + 1)) headers i 0 []
    "" hi hkey hafter2]
  simp

theorem empty_header_key_misalignment_check :
    dictLookup (packRow ["Name", "", "Photo"] ["a", "b", "c"])
        ("Column " ++ toString (1 + 1)) = some ((["a", "b", "c"] : List String).getD 1 "") ∧
    dictLookup (packRow ["Name", "", "Photo"] ["a", "b", "c"]) "" = none ∧
    "" ∈ (["Name", "", "Photo"] : List String) := by
  refine empty_header_key_misalignment ["Name", "", "Photo"] ["a", "b", "c"] 1 rfl ?_
  intro j h hj hget
  match j, hj with
  | 2, _ =>
      obtain rfl : h = "Photo" := by simpa [eq_comm] using hget
      decide
  | n + 3, _ =>
      simp at hget

end Docx
